import Mathlib

/-!
Shallow embedding of the ewasm-kernel Environment Interface
(src/EVMimports.js, src/environment.js) and the properties of its
specification.

Modelling conventions:
* JavaScript numbers that hold gas amounts are modelled as `Int`
  (exact integer arithmetic; amounts can be negative, credits).
* The WASM linear memory marshaling (`getMemory`/`setMemory`) is
  abstracted by passing the byte sequences read from memory as
  `List Nat` arguments and returning the bytes an operation writes.
* Mutation plus JS exceptions are modelled by explicit state passing:
  an operation takes an `Environment` and returns
  `Except EvmError α × Environment`; on a thrown error the returned
  environment is the state at the moment of the throw (mutations made
  before the throw persist, as they do for a mutated JS object).
* The per-account storage object `state[account]['storage']` is an
  association list keyed by the numeric value of the hex key string
  (hex rendering of naturals is injective, so keying by the number is
  equivalent to keying by `keyHex`); a stored hex string is always
  non-empty, hence truthy, so JS truthiness of `oldValue` is `isSome`.
-/

inductive EvmError where
  | OutOfGas
  | InvalidArgument
  deriving DecidableEq, Repr

/-- One log entry, as pushed by `log` onto `environment.logs`
(src/EVMimports.js lines 454-457): raw data bytes and the topic
values in argument order. -/
structure LogEntry where
  data : List Nat
  topics : List Nat
  deriving DecidableEq, Repr

/-- The slice of the mutable `Environment` record (src/environment.js)
that the verified operations read and write.  `storage` is the calling
account's storage mapping; `callValue` is the deposited value of the
current call (the `callValue` default of src/environment.js; see
`create` for how the source refers to it). -/
structure Environment where
  gasLeft : Int
  gasRefund : Int
  storage : List (Nat × Nat)
  logs : List LogEntry
  callValue : Nat
  address : List Nat
  nonce : Nat
  deriving DecidableEq, Repr

/-- Association-list lookup for the storage object
(`state[account]['storage'][keyHex]`). -/
def storeLookup : List (Nat × Nat) → Nat → Option Nat
  | [], _ => none
  | (k, v) :: rest, key => if k = key then some v else storeLookup rest key

/-- Association-list update for `state[account]['storage'][keyHex] = valueHex`:
overwrite if present, append otherwise. -/
def storeInsert : List (Nat × Nat) → Nat → Nat → List (Nat × Nat)
  | [], key, v => [(key, v)]
  | (k, w) :: rest, key, v =>
    if k = key then (key, v) :: rest else (k, w) :: storeInsert rest key v

/-- Association-list removal for `delete state[account]['storage'][keyHex]`. -/
def storeErase : List (Nat × Nat) → Nat → List (Nat × Nat)
  | [], _ => []
  | (k, w) :: rest, key =>
    if k = key then storeErase rest key else (k, w) :: storeErase rest key

/-- `takeGas(amount)` (src/EVMimports.js lines 686-691): throws
`Ran out of gas` when `gasLeft < amount`, otherwise `gasLeft -= amount`. -/
def takeGas (amount : Int) (env : Environment) :
    Except EvmError Unit × Environment :=
  if env.gasLeft < amount then (.error .OutOfGas, env)
  else (.ok (), { env with gasLeft := env.gasLeft - amount })

/-- `from64bit(high, low)` (src/EVMimports.js lines 695-706), exactly as
written in the source: a negative half is replaced by `0x100000000 - half`
(the source's JS arithmetic is floating point; the integer model is exact,
which only widens the set of inputs on which the source could agree with
the specification). -/
def from64bit (high low : Int) : Int :=
  let high' := if high < 0 then 4294967296 - high else high
  let low' := if low < 0 then 4294967296 - low else low
  high' * 4294967296 + low'

/-- The reconstruction the specification describes (§4.2): each half, if
negative, is corrected by adding `2^32` (the genuine 32-bit
two's-complement correction), then `value = high*2^32 + low`. -/
def from64bitSpec (high low : Int) : Int :=
  (if high < 0 then high + 4294967296 else high) * 4294967296 +
  (if low < 0 then low + 4294967296 else low)

/-- Little-endian byte interpretation: head is the least significant byte. -/
def leBytesToNat : List Nat → Nat
  | [] => 0
  | b :: rest => b + 256 * leBytesToNat rest

/-- Modelled from the spec: `U256.fromMemory` of the external large-integer
type (`deps/u256.js`, not under src/) interprets a byte sequence as a
big-endian natural, i.e. the "plain" accessors read memory as
reversed-byte relative to canonical big-endian after the explicit
`reverse()` performed by the interface (§4.4). -/
def u256FromMemory (l : List Nat) : Nat := leBytesToNat l.reverse

/-- Modelled from the spec: `U256.prototype.toMemory(width)` of the
external large-integer type (`deps/u256.js`, not under src/) serializes
the value to `width` bytes, least significant byte first; §4.4 requires
values to be byte-reversed relative to canonical big-endian on the way
out, and the balance fixture (src/unnamed/part_000) checks the written
bytes with a little-endian `i64.load`. -/
def u256ToMemory : Nat → Nat → List Nat
  | _, 0 => []
  | n, w + 1 => n % 256 :: u256ToMemory (n / 256) w

/-- `storageStore(keyOffset, valueOffset)` (src/EVMimports.js lines
587-619).  `key` and `value` are the 32-byte sequences read from module
memory at the two offsets.  The source resolves `oldStorageVal` before
pushing the completion onto the ops queue and mutates inside the
completion; the queue itself is modelled separately (see `processEvents`),
so here the completion is applied directly to the state. -/
def storageStore (key value : List Nat) (env : Environment) :
    Except EvmError Unit × Environment :=
  match takeGas 5000 env with
  | (.error e, env1) => (.error e, env1)
  | (.ok _, env1) =>
    let keyHex := u256FromMemory key.reverse
    let valueRev := value.reverse
    let valueHex := u256FromMemory valueRev
    let valIsZero := valueRev.all fun i => i == 0
    let oldValue := storeLookup env1.storage keyHex
    if valIsZero && oldValue.isSome then
      -- delete a value
      (.ok (), { env1 with gasRefund := env1.gasRefund + 15000,
                           storage := storeErase env1.storage keyHex })
    else
      match (if !valIsZero && oldValue.isNone then takeGas 15000 env1
             else (.ok (), env1)) with
      | (.error e, env2) => (.error e, env2)
      | (.ok _, env2) =>
        -- update
        (.ok (), { env2 with storage := storeInsert env2.storage keyHex valueHex })

/-- `storageLoad(keyOffset, resultOffset)` (src/EVMimports.js lines
626-648).  `key` is the 32-byte sequence read at `keyOffset`; the `ok`
payload is the 32-byte sequence the completion writes to `resultOffset`. -/
def storageLoad (key : List Nat) (env : Environment) :
    Except EvmError (List Nat) × Environment :=
  match takeGas 50 env with
  | (.error e, env1) => (.error e, env1)
  | (.ok _, env1) =>
    let keyHex := u256FromMemory key.reverse
    let value := match storeLookup env1.storage keyHex with
      | none => List.replicate 32 0
      | some v => u256ToMemory v 32
    (.ok value, env1)

/- ---------------------------------------------------------------- -/
/- Helper lemmas                                                     -/
/- ---------------------------------------------------------------- -/

theorem storeLookup_insert (s : List (Nat × Nat)) (k v : Nat) :
    storeLookup (storeInsert s k v) k = some v := by
  induction s with
  | nil => simp [storeInsert, storeLookup]
  | cons hd tl ih =>
    obtain ⟨k', v'⟩ := hd
    by_cases h : k' = k <;> simp [storeInsert, storeLookup, h, ih]

theorem leBytesToNat_roundtrip (v : List Nat) (h : ∀ b ∈ v, b < 256) :
    u256ToMemory (leBytesToNat v) v.length = v := by
  induction v with
  | nil => rfl
  | cons b rest ih =>
    have hb : b < 256 := h b (List.mem_cons_self b rest)
    have hrest : ∀ x ∈ rest, x < 256 := fun x hx => h x (List.mem_cons_of_mem b hx)
    simp only [leBytesToNat, List.length_cons, u256ToMemory]
    have hmod : (b + 256 * leBytesToNat rest) % 256 = b := by
      rw [Nat.add_mul_mod_self_left, Nat.mod_eq_of_lt hb]
    have hdiv : (b + 256 * leBytesToNat rest) / 256 = leBytesToNat rest := by
      rw [Nat.add_mul_div_left _ _ (by norm_num : 0 < 256),
        Nat.div_eq_of_lt hb, Nat.zero_add]
    rw [hmod, hdiv, ih hrest]

theorem takeGas_of_le {a : Int} {env : Environment} (h : a ≤ env.gasLeft) :
    takeGas a env = (.ok (), { env with gasLeft := env.gasLeft - a }) := by
  unfold takeGas
  rw [if_neg (not_lt.mpr h)]

theorem takeGas_of_gt {a : Int} {env : Environment} (h : env.gasLeft < a) :
    takeGas a env = (.error .OutOfGas, env) := by
  unfold takeGas
  rw [if_pos h]

theorem from64bit_nonneg (high low : Int) : 0 ≤ from64bit high low := by
  simp only [from64bit]
  split <;> split <;> nlinarith

theorem all_reverse (p : Nat → Bool) (l : List Nat) :
    l.reverse.all p = l.all p := by
  induction l with
  | nil => rfl
  | cons b t ih => simp [List.all_append, ih, Bool.and_comm]

/- ---------------------------------------------------------------- -/
/- C1: takeGas success / failure behaviour                           -/
/- ---------------------------------------------------------------- -/

/-- C1: for every amount `a` with `a ≤ gasLeft`, `takeGas a` succeeds and
the new `gasLeft` equals `gasLeft - a`; for every `a > gasLeft`, `takeGas a`
fails with `OutOfGas` and the environment (in particular `gasLeft`) is
unchanged: the failed debit mutates nothing. -/
theorem takeGas_spec (a : Int) (env : Environment) :
    (a ≤ env.gasLeft →
      takeGas a env = (.ok (), { env with gasLeft := env.gasLeft - a })) ∧
    (env.gasLeft < a → takeGas a env = (.error .OutOfGas, env)) :=
  ⟨fun h => takeGas_of_le h, fun h => takeGas_of_gt h⟩

def env0 : Environment :=
  { gasLeft := 1000000, gasRefund := 0, storage := [], logs := [],
    callValue := 0, address := List.replicate 20 0, nonce := 0 }

/-- Witness for C1 at concrete inputs. -/
theorem takeGas_spec_witness :
    takeGas 3 env0 = (.ok (), { env0 with gasLeft := env0.gasLeft - 3 }) ∧
    takeGas 2000000 env0 = (.error .OutOfGas, env0) :=
  ⟨(takeGas_spec 3 env0).1 (by decide),
   (takeGas_spec 2000000 env0).2 (by decide)⟩

/- ---------------------------------------------------------------- -/
/- C2: the bit-width shim's two's-complement correction              -/
/- ---------------------------------------------------------------- -/

/-- C2 (code bug): at the 32-bit input `high = -1, low = 0` (the halves
the shim produces for the 64-bit value `0xFFFFFFFF00000000`), the source's
`from64bit` computes `(2^32 + 1) * 2^32 = 18446744078004518912` — not
even a 64-bit value — whereas the two's-complement correction the
specification (and the source's own comment) describes yields
`(2^32 - 1) * 2^32 = 18446744069414584320`.  The source subtracts the
negative half from `2^32` instead of adding it. -/
theorem from64bit_negative_half_bug :
    from64bit (-1) 0 = 18446744078004518912 ∧
    from64bitSpec (-1) 0 = 18446744069414584320 ∧
    from64bit (-1) 0 ≠ from64bitSpec (-1) 0 := by
  refine ⟨by decide, by decide, by decide⟩

/- ---------------------------------------------------------------- -/
/- C3: storageStore gas accounting and refund                        -/
/- ---------------------------------------------------------------- -/

/-- Case analysis of `storageStore`: the delete/refund branch, the
new-slot branch and the plain-overwrite branch. -/
theorem storageStore_cases (k v : List Nat) (env : Environment)
    (hg : 5000 ≤ env.gasLeft) :
    ((v.all fun i => i == 0) = true →
     (storeLookup env.storage (u256FromMemory k.reverse)).isSome = true →
      storageStore k v env = (.ok (),
        { env with gasLeft := env.gasLeft - 5000,
                   gasRefund := env.gasRefund + 15000,
                   storage := storeErase env.storage (u256FromMemory k.reverse) })) ∧
    ((v.all fun i => i == 0) = false →
     storeLookup env.storage (u256FromMemory k.reverse) = none →
     20000 ≤ env.gasLeft →
      storageStore k v env = (.ok (),
        { env with gasLeft := env.gasLeft - 20000,
                   storage := storeInsert env.storage (u256FromMemory k.reverse)
                     (u256FromMemory v.reverse) })) ∧
    (((v.all fun i => i == 0) = false ∧
        (storeLookup env.storage (u256FromMemory k.reverse)).isSome = true) ∨
     ((v.all fun i => i == 0) = true ∧
        storeLookup env.storage (u256FromMemory k.reverse) = none) →
      storageStore k v env = (.ok (),
        { env with gasLeft := env.gasLeft - 5000,
                   storage := storeInsert env.storage (u256FromMemory k.reverse)
                     (u256FromMemory v.reverse) })) := by
  refine ⟨fun hz hold => ?_, fun hnz habs h20 => ?_, fun hcase => ?_⟩
  · simp [storageStore, takeGas_of_le hg, all_reverse, hz, hold]
  · have h15 : (15000 : Int) ≤ env.gasLeft - 5000 := by omega
    simp [storageStore, takeGas_of_le hg, all_reverse, hnz, habs,
      @takeGas_of_le 15000 { env with gasLeft := env.gasLeft - 5000 } h15,
      Prod.ext_iff, Environment.mk.injEq]
    omega
  · rcases hcase with ⟨hnz, hold⟩ | ⟨hz, habs⟩
    · rcases Option.isSome_iff_exists.mp hold with ⟨w, hw⟩
      simp [storageStore, takeGas_of_le hg, all_reverse, hnz, hw]
    · simp [storageStore, takeGas_of_le hg, all_reverse, hz, habs]

/-- C3: `storageStore(key, value)` charges 5000 base gas, then: if the new
value is all-zero and a prior value existed, it deletes the slot and
credits `gasRefund += 15000` exactly once; if the new value is non-zero
and no prior value existed, it charges an additional 15000 (total 20000)
and writes; otherwise it overwrites in place with no extra charge and no
refund. -/
theorem storageStore_gas_spec (k v : List Nat) (env : Environment)
    (hg : 5000 ≤ env.gasLeft) :
    ((v.all fun i => i == 0) = true →
     (storeLookup env.storage (u256FromMemory k.reverse)).isSome = true →
      storageStore k v env = (.ok (),
        { env with gasLeft := env.gasLeft - 5000,
                   gasRefund := env.gasRefund + 15000,
                   storage := storeErase env.storage (u256FromMemory k.reverse) })) ∧
    ((v.all fun i => i == 0) = false →
     storeLookup env.storage (u256FromMemory k.reverse) = none →
     20000 ≤ env.gasLeft →
      storageStore k v env = (.ok (),
        { env with gasLeft := env.gasLeft - 20000,
                   storage := storeInsert env.storage (u256FromMemory k.reverse)
                     (u256FromMemory v.reverse) })) ∧
    (((v.all fun i => i == 0) = false ∧
        (storeLookup env.storage (u256FromMemory k.reverse)).isSome = true) ∨
     ((v.all fun i => i == 0) = true ∧
        storeLookup env.storage (u256FromMemory k.reverse) = none) →
      storageStore k v env = (.ok (),
        { env with gasLeft := env.gasLeft - 5000,
                   storage := storeInsert env.storage (u256FromMemory k.reverse)
                     (u256FromMemory v.reverse) })) :=
  storageStore_cases k v env hg

def envA : Environment := { env0 with storage := [(0, 7)] }

/-- Witness for C3 at concrete inputs, one per branch. -/
theorem storageStore_gas_spec_witness :
    storageStore (List.replicate 32 0) (List.replicate 32 0) envA = (.ok (),
      { envA with gasLeft := envA.gasLeft - 5000,
                  gasRefund := envA.gasRefund + 15000,
                  storage := storeErase envA.storage
                    (u256FromMemory (List.replicate 32 0).reverse) }) ∧
    storageStore (List.replicate 32 0) (1 :: List.replicate 31 0) env0 = (.ok (),
      { env0 with gasLeft := env0.gasLeft - 20000,
                  storage := storeInsert env0.storage
                    (u256FromMemory (List.replicate 32 0).reverse)
                    (u256FromMemory (1 :: List.replicate 31 0).reverse) }) ∧
    storageStore (List.replicate 32 0) (1 :: List.replicate 31 0) envA = (.ok (),
      { envA with gasLeft := envA.gasLeft - 5000,
                  storage := storeInsert envA.storage
                    (u256FromMemory (List.replicate 32 0).reverse)
                    (u256FromMemory (1 :: List.replicate 31 0).reverse) }) :=
  ⟨(storageStore_gas_spec _ _ envA (by decide)).1 (by decide) (by decide),
   (storageStore_gas_spec _ _ env0 (by decide)).2.1 (by decide) (by decide) (by decide),
   (storageStore_gas_spec _ _ envA (by decide)).2.2 (Or.inl ⟨by decide, by decide⟩)⟩

/- ---------------------------------------------------------------- -/
/- C4: storage round trip                                            -/
/- ---------------------------------------------------------------- -/

theorem storageLoad_found (k : List Nat) (env : Environment) (w : Nat)
    (hg : 50 ≤ env.gasLeft)
    (h : storeLookup env.storage (u256FromMemory k.reverse) = some w) :
    storageLoad k env =
      (.ok (u256ToMemory w 32), { env with gasLeft := env.gasLeft - 50 }) := by
  simp [storageLoad, takeGas_of_le hg, h]

theorem storageLoad_absent (k : List Nat) (env : Environment)
    (hg : 50 ≤ env.gasLeft)
    (h : storeLookup env.storage (u256FromMemory k.reverse) = none) :
    storageLoad k env =
      (.ok (List.replicate 32 0), { env with gasLeft := env.gasLeft - 50 }) := by
  simp [storageLoad, takeGas_of_le hg, h]

theorem u256_roundtrip (v : List Nat) (hlen : v.length = 32)
    (hbytes : ∀ b ∈ v, b < 256) :
    u256ToMemory (u256FromMemory v.reverse) 32 = v := by
  have : u256FromMemory v.reverse = leBytesToNat v := by
    simp [u256FromMemory]
  rw [this, ← hlen, leBytesToNat_roundtrip v hbytes]

/-- C4: for every nonzero 256-bit value `v` (32 bytes) and every key `k`,
`storageStore k v` succeeds and a following `storageLoad k` writes back
exactly the 32 bytes `v` into module memory; `storageLoad` of a key never
stored returns 32 zero bytes. -/
theorem storage_roundtrip (k v : List Nat) (env : Environment)
    (hlen : v.length = 32) (hbytes : ∀ b ∈ v, b < 256)
    (hnz : (v.all fun i => i == 0) = false) (hg : 20050 ≤ env.gasLeft) :
    (storageStore k v env).1 = .ok () ∧
    (storageLoad k (storageStore k v env).2).1 = .ok v ∧
    (∀ k2, storeLookup env.storage (u256FromMemory k2.reverse) = none →
      (storageLoad k2 env).1 = .ok (List.replicate 32 0)) := by
  have hg5 : (5000 : Int) ≤ env.gasLeft := by omega
  have hload : ∀ k2, storeLookup env.storage (u256FromMemory k2.reverse) = none →
      (storageLoad k2 env).1 = .ok (List.replicate 32 0) := by
    intro k2 h2
    rw [storageLoad_absent k2 env (by omega) h2]
  rcases hcase : storeLookup env.storage (u256FromMemory k.reverse) with _ | w
  · have hst := (storageStore_cases k v env hg5).2.1 hnz hcase (by omega)
    rw [hst]
    refine ⟨rfl, ?_, hload⟩
    rw [storageLoad_found k _ (u256FromMemory v.reverse) (by simp; omega)
      (by simp [storeLookup_insert]), u256_roundtrip v hlen hbytes]
  · have hst := (storageStore_cases k v env hg5).2.2
      (Or.inl ⟨hnz, by rw [hcase]; rfl⟩)
    rw [hst]
    refine ⟨rfl, ?_, hload⟩
    rw [storageLoad_found k _ (u256FromMemory v.reverse) (by simp; omega)
      (by simp [storeLookup_insert]), u256_roundtrip v hlen hbytes]

/-- Witness for C4 at concrete inputs. -/
theorem storage_roundtrip_witness :
    (storageStore (List.replicate 32 0) (2 :: List.replicate 31 0) env0).1 = .ok () ∧
    (storageLoad (List.replicate 32 0)
      (storageStore (List.replicate 32 0) (2 :: List.replicate 31 0) env0).2).1 =
        .ok (2 :: List.replicate 31 0) ∧
    (∀ k2, storeLookup env0.storage (u256FromMemory k2.reverse) = none →
      (storageLoad k2 env0).1 = .ok (List.replicate 32 0)) :=
  storage_roundtrip (List.replicate 32 0) (2 :: List.replicate 31 0) env0
    (by decide) (by decide) (by decide) (by decide)

/- ---------------------------------------------------------------- -/
/- C10: storing zero at an absent key creates a slot                 -/
/- ---------------------------------------------------------------- -/

/-- C10: for a key with no prior storage entry, `storageStore` of an
all-zero value creates a stored entry for that key (the slot is no longer
absent) and charges only the 5000 base (no 15000 new-slot cost); a second
`storageStore` of an all-zero value at the same key then takes the delete
branch and credits `gasRefund += 15000`, even though no nonzero value was
ever stored there. -/
theorem storageStore_zero_creates (k v : List Nat) (env : Environment)
    (hz : (v.all fun i => i == 0) = true)
    (habs : storeLookup env.storage (u256FromMemory k.reverse) = none)
    (hg : 10000 ≤ env.gasLeft) :
    storageStore k v env = (.ok (),
      { env with gasLeft := env.gasLeft - 5000,
                 storage := storeInsert env.storage (u256FromMemory k.reverse)
                   (u256FromMemory v.reverse) }) ∧
    (storeLookup
      (storeInsert env.storage (u256FromMemory k.reverse)
        (u256FromMemory v.reverse)) (u256FromMemory k.reverse)).isSome = true ∧
    storageStore k v
      { env with gasLeft := env.gasLeft - 5000,
                 storage := storeInsert env.storage (u256FromMemory k.reverse)
                   (u256FromMemory v.reverse) } = (.ok (),
      { env with gasLeft := env.gasLeft - 10000,
                 gasRefund := env.gasRefund + 15000,
                 storage := storeErase
                   (storeInsert env.storage (u256FromMemory k.reverse)
                     (u256FromMemory v.reverse)) (u256FromMemory k.reverse) }) := by
  have h1 := (storageStore_cases k v env (by omega)).2.2 (Or.inr ⟨hz, habs⟩)
  have hsome : (storeLookup
      (storeInsert env.storage (u256FromMemory k.reverse)
        (u256FromMemory v.reverse)) (u256FromMemory k.reverse)).isSome = true := by
    rw [storeLookup_insert]; rfl
  refine ⟨h1, hsome, ?_⟩
  have h2 := (storageStore_cases k v
      { env with gasLeft := env.gasLeft - 5000,
                 storage := storeInsert env.storage (u256FromMemory k.reverse)
                   (u256FromMemory v.reverse) } (by simp; omega)).1 hz hsome
  rw [h2]
  simp [Prod.ext_iff, Environment.mk.injEq]
  omega

/-- Witness for C10 at concrete inputs. -/
theorem storageStore_zero_creates_witness :
    storageStore (List.replicate 32 0) (List.replicate 32 0) env0 = (.ok (),
      { env0 with gasLeft := env0.gasLeft - 5000,
                  storage := storeInsert env0.storage
                    (u256FromMemory (List.replicate 32 0).reverse)
                    (u256FromMemory (List.replicate 32 0).reverse) }) ∧
    (storeLookup
      (storeInsert env0.storage (u256FromMemory (List.replicate 32 0).reverse)
        (u256FromMemory (List.replicate 32 0).reverse))
      (u256FromMemory (List.replicate 32 0).reverse)).isSome = true ∧
    storageStore (List.replicate 32 0) (List.replicate 32 0)
      { env0 with gasLeft := env0.gasLeft - 5000,
                  storage := storeInsert env0.storage
                    (u256FromMemory (List.replicate 32 0).reverse)
                    (u256FromMemory (List.replicate 32 0).reverse) } = (.ok (),
      { env0 with gasLeft := env0.gasLeft - 10000,
                  gasRefund := env0.gasRefund + 15000,
                  storage := storeErase
                    (storeInsert env0.storage
                      (u256FromMemory (List.replicate 32 0).reverse)
                      (u256FromMemory (List.replicate 32 0).reverse))
                    (u256FromMemory (List.replicate 32 0).reverse) }) :=
  storageStore_zero_creates (List.replicate 32 0) (List.replicate 32 0) env0
    (by decide) (by decide) (by decide)

/- ---------------------------------------------------------------- -/
/- C5: value-transferring call surcharge                             -/
/- ---------------------------------------------------------------- -/

/-- `_call(gasHigh, gasLow, addressOffset, valueOffset, ...)`
(src/EVMimports.js lines 503-524).  `valueBytes` is the 16-byte (U128)
sequence read at `valueOffset`.  `value.isZero()` of the external
large-integer type (`deps/u256.js`, not under src/) is modelled from the
spec as "all bytes zero".  The queued completion only returns the success
sentinel `1` (nested execution is stubbed), so it is omitted here. -/
def callImpl (gasHigh gasLow : Int) (valueBytes : List Nat)
    (env : Environment) : Except EvmError Unit × Environment :=
  match takeGas 40 env with
  | (.error e, env1) => (.error e, env1)
  | (.ok _, env1) =>
    let gas := from64bit gasHigh gasLow
    let valueIsZero := valueBytes.all fun i => i == 0
    if valueIsZero then (.ok (), env1)
    else
      match takeGas (9000 - 2300 + gas) env1 with
      | (.error e, env2) => (.error e, env2)
      | (.ok _, env2) => takeGas (-gas) env2

/-- C5: for every forwarded-gas argument, a call with nonzero transferred
value charges exactly 6700 gas beyond the 40 base: the `(9000 - 2300) +
forwardedGas` debit followed by the `-forwardedGas` credit nets a
constant surcharge independent of the forwarded amount. -/
theorem call_value_surcharge (gasHigh gasLow : Int) (valueBytes : List Nat)
    (env : Environment)
    (hnz : (valueBytes.all fun i => i == 0) = false)
    (hg : 6740 + from64bit gasHigh gasLow ≤ env.gasLeft) :
    callImpl gasHigh gasLow valueBytes env =
      (.ok (), { env with gasLeft := env.gasLeft - 6740 }) := by
  have hgpos := from64bit_nonneg gasHigh gasLow
  have h40 : (40 : Int) ≤ env.gasLeft := by omega
  have h2 : (9000 - 2300 + from64bit gasHigh gasLow : Int) ≤
      ({ env with gasLeft := env.gasLeft - 40 } : Environment).gasLeft := by
    simp only []; omega
  have h3 : (-(from64bit gasHigh gasLow) : Int) ≤
      ({ env with gasLeft := env.gasLeft - 40 } : Environment).gasLeft -
        (9000 - 2300 + from64bit gasHigh gasLow) := by
    simp only []; omega
  simp only [callImpl, takeGas_of_le h40, hnz, Bool.false_eq_true, if_false,
    @takeGas_of_le (9000 - 2300 + from64bit gasHigh gasLow)
      { env with gasLeft := env.gasLeft - 40 } h2,
    @takeGas_of_le (-(from64bit gasHigh gasLow))
      { env with gasLeft := ({ env with gasLeft := env.gasLeft - 40 } :
          Environment).gasLeft - (9000 - 2300 + from64bit gasHigh gasLow) } h3]
  simp [Prod.ext_iff, Environment.mk.injEq]
  omega

/-- Witness for C5 at concrete inputs. -/
theorem call_value_surcharge_witness :
    callImpl 0 5 (1 :: List.replicate 15 0) env0 =
      (.ok (), { env0 with gasLeft := env0.gasLeft - 6740 }) :=
  call_value_surcharge 0 5 (1 :: List.replicate 15 0) env0 (by decide) (by decide)

/- ---------------------------------------------------------------- -/
/- C6: create                                                        -/
/- ---------------------------------------------------------------- -/

/-- `create(valueOffset, dataOffset, length, resultOffset)`
(src/EVMimports.js lines 468-490).  `valueBytes` is the 16-byte (U128)
sequence read at `valueOffset`; the `ok` payload is the 20-byte address
the completion writes to `resultOffset` (`Buffer.alloc(20)` is 20 zero
bytes).  `derive` is the external address-derivation collaborator
(`ethUtil.generateAddress`, not under src/), passed as a parameter.
Modelled from the spec: the source compares against
`this.kernel.environment.value`, which §4.5 identifies as "the current
call's deposited value" (the `callValue` field of the Environment
record), and `U256.gt` (`deps/u256.js`, not under src/) is numeric
comparison of the 256-bit values. -/
def create (derive : List Nat → Nat → List Nat) (valueBytes : List Nat)
    (env : Environment) : Except EvmError (List Nat) × Environment :=
  match takeGas 32000 env with
  | (.error e, env1) => (.error e, env1)
  | (.ok _, env1) =>
    let value := u256FromMemory valueBytes
    if env1.callValue < value then
      (.ok (List.replicate 20 0), env1)
    else
      (.ok (derive env1.address env1.nonce), env1)

/-- C6: `create` charges 32000 base gas and, when the requested value
exceeds the current call's deposited value, writes the 20-byte zero
address to the result offset; otherwise it writes the deterministic
address derived from `(address, nonce)`. -/
theorem create_spec (derive : List Nat → Nat → List Nat)
    (valueBytes : List Nat) (env : Environment)
    (hg : 32000 ≤ env.gasLeft) :
    (env.callValue < u256FromMemory valueBytes →
      create derive valueBytes env =
        (.ok (List.replicate 20 0), { env with gasLeft := env.gasLeft - 32000 })) ∧
    (u256FromMemory valueBytes ≤ env.callValue →
      create derive valueBytes env =
        (.ok (derive env.address env.nonce),
          { env with gasLeft := env.gasLeft - 32000 })) := by
  constructor
  · intro h
    simp [create, takeGas_of_le hg, h]
  · intro h
    simp [create, takeGas_of_le hg, not_lt.mpr h]

/-- Witness for C6 at concrete inputs, both branches. -/
theorem create_spec_witness :
    create (fun _ _ => List.replicate 20 3) (1 :: List.replicate 15 0) env0 =
      (.ok (List.replicate 20 0), { env0 with gasLeft := env0.gasLeft - 32000 }) ∧
    create (fun _ _ => List.replicate 20 3) (List.replicate 16 0) env0 =
      (.ok (List.replicate 20 3), { env0 with gasLeft := env0.gasLeft - 32000 }) :=
  ⟨(create_spec (fun _ _ => List.replicate 20 3) (1 :: List.replicate 15 0) env0
      (by decide)).1 (by decide),
   (create_spec (fun _ _ => List.replicate 20 3) (List.replicate 16 0) env0
      (by decide)).2 (by decide)⟩

/- ---------------------------------------------------------------- -/
/- C7: log                                                           -/
/- ---------------------------------------------------------------- -/

/-- `log(dataOffset, length, numberOfTopics, topic1..topic4)`
(src/EVMimports.js lines 427-458).  `dataBytes` is the byte sequence at
`dataOffset` (only read when `length` is nonzero, as in the source) and
`t1..t4` are the 32-byte sequences at the four topic offsets.  The
range check on `numberOfTopics` precedes the gas debit, as in the
source. -/
def logOp (dataBytes : List Nat) (length : Nat) (numberOfTopics : Int)
    (t1 t2 t3 t4 : List Nat) (env : Environment) :
    Except EvmError Unit × Environment :=
  if numberOfTopics < 0 ∨ 4 < numberOfTopics then (.error .InvalidArgument, env)
  else
    match takeGas (375 + (length : Int) * 8 + numberOfTopics * 375) env with
    | (.error e, env1) => (.error e, env1)
    | (.ok _, env1) =>
      let data := if length ≠ 0 then dataBytes else []
      let topics :=
        (if 0 < numberOfTopics then [u256FromMemory t1] else []) ++
        (if 1 < numberOfTopics then [u256FromMemory t2] else []) ++
        (if 2 < numberOfTopics then [u256FromMemory t3] else []) ++
        (if 3 < numberOfTopics then [u256FromMemory t4] else [])
      (.ok (), { env1 with logs := env1.logs ++ [⟨data, topics⟩] })

/-- C7: `log` fails with `InvalidArgument` (and changes nothing) whenever
`numTopics < 0` or `numTopics > 4`; otherwise it appends exactly one
`LogEntry` to the logs sequence whose topics equal the supplied topics in
argument order (the first `numTopics` of `topic1..topic4`), with data
copied verbatim and an empty buffer when `length = 0`. -/
theorem log_spec (dataBytes : List Nat) (length : Nat) (numberOfTopics : Int)
    (t1 t2 t3 t4 : List Nat) (env : Environment) :
    ((numberOfTopics < 0 ∨ 4 < numberOfTopics) →
      logOp dataBytes length numberOfTopics t1 t2 t3 t4 env =
        (.error .InvalidArgument, env)) ∧
    (0 ≤ numberOfTopics → numberOfTopics ≤ 4 →
     375 + (length : Int) * 8 + numberOfTopics * 375 ≤ env.gasLeft →
      logOp dataBytes length numberOfTopics t1 t2 t3 t4 env =
        (.ok (), { env with
          gasLeft := env.gasLeft - (375 + (length : Int) * 8 + numberOfTopics * 375),
          logs := env.logs ++ [⟨if length ≠ 0 then dataBytes else [],
            List.take numberOfTopics.toNat
              [u256FromMemory t1, u256FromMemory t2,
               u256FromMemory t3, u256FromMemory t4]⟩] })) := by
  constructor
  · intro h
    unfold logOp
    rw [if_pos h]
  · intro h0 h4 hgas
    unfold logOp
    rw [if_neg (by omega)]
    rw [takeGas_of_le hgas]
    interval_cases numberOfTopics <;> rfl

/-- Witness for C7 at concrete inputs, both branches. -/
theorem log_spec_witness :
    logOp [9] 1 5 (List.replicate 32 1) (List.replicate 32 2)
        (List.replicate 32 3) (List.replicate 32 4) env0 =
      (.error .InvalidArgument, env0) ∧
    logOp [9] 1 2 (List.replicate 32 1) (List.replicate 32 2)
        (List.replicate 32 3) (List.replicate 32 4) env0 =
      (.ok (), { env0 with
        gasLeft := env0.gasLeft - (375 + ((1 : Nat) : Int) * 8 + 2 * 375),
        logs := env0.logs ++ [⟨if (1 : Nat) ≠ 0 then [9] else [],
          List.take (2 : Int).toNat
            [u256FromMemory (List.replicate 32 1), u256FromMemory (List.replicate 32 2),
             u256FromMemory (List.replicate 32 3), u256FromMemory (List.replicate 32 4)]⟩] }) :=
  ⟨(log_spec [9] 1 5 (List.replicate 32 1) (List.replicate 32 2)
      (List.replicate 32 3) (List.replicate 32 4) env0).1 (by decide),
   (log_spec [9] 1 2 (List.replicate 32 1) (List.replicate 32 2)
      (List.replicate 32 3) (List.replicate 32 4) env0).2
      (by decide) (by decide) (by decide)⟩

/- ---------------------------------------------------------------- -/
/- C8: gasLeft is never negative                                     -/
/- ---------------------------------------------------------------- -/

theorem takeGas_cases (a : Int) (env : Environment) :
    (env.gasLeft < a ∧ takeGas a env = (.error .OutOfGas, env)) ∨
    (a ≤ env.gasLeft ∧
      takeGas a env = (.ok (), { env with gasLeft := env.gasLeft - a })) := by
  unfold takeGas
  split
  · exact Or.inl ⟨by assumption, rfl⟩
  · exact Or.inr ⟨not_lt.mp (by assumption), rfl⟩

theorem takeGas_gasLeft_nonneg (a : Int) (env : Environment)
    (h : 0 ≤ env.gasLeft) : 0 ≤ (takeGas a env).2.gasLeft := by
  rcases takeGas_cases a env with ⟨_, heq⟩ | ⟨hle, heq⟩ <;> rw [heq]
  · exact h
  · simp only []
    omega

theorem storageStore_gasLeft_nonneg (k v : List Nat) (env : Environment)
    (h : 0 ≤ env.gasLeft) : 0 ≤ (storageStore k v env).2.gasLeft := by
  unfold storageStore
  rcases takeGas_cases 5000 env with ⟨_, heq⟩ | ⟨hle, heq⟩ <;> rw [heq]
  · exact h
  · simp only []
    split
    · simp only []
      omega
    · by_cases hc : ((!v.reverse.all fun i => i == 0) &&
          (storeLookup env.storage (u256FromMemory k.reverse)).isNone) = true
      · rw [if_pos hc]
        rcases takeGas_cases 15000 { env with gasLeft := env.gasLeft - 5000 } with
          ⟨hlt2, heq2⟩ | ⟨hle2, heq2⟩
        · rw [heq2]
          simp only []
          omega
        · rw [heq2]
          simp only [] at hle2 ⊢
          omega
      · rw [if_neg hc]
        simp only []
        omega

theorem storageLoad_gasLeft_nonneg (k : List Nat) (env : Environment)
    (h : 0 ≤ env.gasLeft) : 0 ≤ (storageLoad k env).2.gasLeft := by
  unfold storageLoad
  rcases takeGas_cases 50 env with ⟨_, heq⟩ | ⟨hle, heq⟩ <;> rw [heq]
  · exact h
  · simp only []
    omega

theorem callImpl_gasLeft_nonneg (gh gl : Int) (vb : List Nat)
    (env : Environment) (h : 0 ≤ env.gasLeft) :
    0 ≤ (callImpl gh gl vb env).2.gasLeft := by
  unfold callImpl
  rcases takeGas_cases 40 env with ⟨_, heq⟩ | ⟨hle, heq⟩ <;> rw [heq]
  · exact h
  · simp only []
    split
    · simp only []
      omega
    · rcases takeGas_cases (9000 - 2300 + from64bit gh gl)
          { env with gasLeft := env.gasLeft - 40 } with
        ⟨_, heq2⟩ | ⟨hle2, heq2⟩ <;> rw [heq2]
      · simp only []
        omega
      · simp only []
        exact takeGas_gasLeft_nonneg _ _ (by simp only [] at hle2 ⊢; omega)

theorem create_gasLeft_nonneg (derive : List Nat → Nat → List Nat)
    (vb : List Nat) (env : Environment) (h : 0 ≤ env.gasLeft) :
    0 ≤ (create derive vb env).2.gasLeft := by
  unfold create
  rcases takeGas_cases 32000 env with ⟨_, heq⟩ | ⟨hle, heq⟩ <;> rw [heq]
  · exact h
  · simp only []
    split <;> simp only [] <;> omega

theorem logOp_gasLeft_nonneg (d : List Nat) (len : Nat) (n : Int)
    (t1 t2 t3 t4 : List Nat) (env : Environment) (h : 0 ≤ env.gasLeft) :
    0 ≤ (logOp d len n t1 t2 t3 t4 env).2.gasLeft := by
  unfold logOp
  split
  · exact h
  · rcases takeGas_cases (375 + (len : Int) * 8 + n * 375) env with
      ⟨_, heq⟩ | ⟨hle, heq⟩ <;> rw [heq]
    · exact h
    · simp only []
      omega

/-- One host call issued by the module, carrying the byte sequences its
memory reads resolve to.  `chargeOp` stands for the remaining interface
operations, whose only effect on `gasLeft` is a single fixed-cost
`takeGas` (getAddress 2, getBalance 20, callDataCopy `3 + ceil(len/32)*3`,
callCode 40, selfDestruct 0, ...); the amount is left arbitrary, which
only strengthens the invariant. -/
inductive Op where
  | useGasOp (high low : Int)
  | callOp (gasHigh gasLow : Int) (valueBytes : List Nat)
  | storageStoreOp (key value : List Nat)
  | storageLoadOp (key : List Nat)
  | createOp (valueBytes : List Nat)
  | logEmitOp (dataBytes : List Nat) (length : Nat) (numberOfTopics : Int)
      (t1 t2 t3 t4 : List Nat)
  | chargeOp (amount : Int)

/-- Dispatch one interface operation against the environment. -/
def runOp (derive : List Nat → Nat → List Nat) :
    Op → Environment → Except EvmError Unit × Environment
  | .useGasOp h l, env => takeGas (from64bit h l) env
  | .callOp gh gl vb, env => callImpl gh gl vb env
  | .storageStoreOp k v, env => storageStore k v env
  | .storageLoadOp k, env =>
    let r := storageLoad k env
    (r.1.map fun _ => (), r.2)
  | .createOp vb, env =>
    let r := create derive vb env
    (r.1.map fun _ => (), r.2)
  | .logEmitOp d len n t1 t2 t3 t4, env => logOp d len n t1 t2 t3 t4 env
  | .chargeOp a, env => takeGas a env

/-- Run a sequence of interface operations; a fatal error (OutOfGas,
InvalidArgument) aborts the invocation, leaving the state at the moment
of the abort. -/
def runOps (derive : List Nat → Nat → List Nat) :
    List Op → Environment → Environment
  | [], env => env
  | op :: rest, env =>
    match runOp derive op env with
    | (.ok _, env1) => runOps derive rest env1
    | (.error _, env1) => env1

theorem runOp_gasLeft_nonneg (derive : List Nat → Nat → List Nat)
    (op : Op) (env : Environment) (h : 0 ≤ env.gasLeft) :
    0 ≤ (runOp derive op env).2.gasLeft := by
  cases op with
  | useGasOp hi lo => exact takeGas_gasLeft_nonneg _ _ h
  | callOp gh gl vb => exact callImpl_gasLeft_nonneg _ _ _ _ h
  | storageStoreOp k v => exact storageStore_gasLeft_nonneg _ _ _ h
  | storageLoadOp k => exact storageLoad_gasLeft_nonneg _ _ h
  | createOp vb => exact create_gasLeft_nonneg _ _ _ h
  | logEmitOp d len n t1 t2 t3 t4 => exact logOp_gasLeft_nonneg _ _ _ _ _ _ _ _ h
  | chargeOp a => exact takeGas_gasLeft_nonneg _ _ h

/-- C8: starting from a non-negative `gasLeft`, `gasLeft` is never
negative after any sequence of interface operations: every debit that
would make it negative fails atomically before mutation, and this holds
even in the presence of negative-amount credits (the `-forwardedGas`
credit of value-transferring calls and arbitrary `chargeOp` amounts are
included in `Op`). -/
theorem gasLeft_never_negative (derive : List Nat → Nat → List Nat)
    (ops : List Op) (env : Environment) (h : 0 ≤ env.gasLeft) :
    0 ≤ (runOps derive ops env).gasLeft := by
  induction ops generalizing env with
  | nil => exact h
  | cons op rest ih =>
    have hop := runOp_gasLeft_nonneg derive op env h
    unfold runOps
    rcases hr : runOp derive op env with ⟨r, env1⟩
    rw [hr] at hop
    cases r with
    | ok u => exact ih env1 hop
    | error e => exact hop

/-- Witness for C8: a concrete sequence containing a value-transferring
call (with its negative-amount credit), storage traffic and a plain
charge. -/
theorem gasLeft_never_negative_witness :
    0 ≤ (runOps (fun _ _ => List.replicate 20 0)
      [.callOp 0 7 (1 :: List.replicate 15 0),
       .storageStoreOp (List.replicate 32 0) (3 :: List.replicate 31 0),
       .chargeOp 2,
       .useGasOp 0 100,
       .storageLoadOp (List.replicate 32 0)] env0).gasLeft :=
  gasLeft_never_negative (fun _ _ => List.replicate 20 0) _ env0 (by decide)

/- ---------------------------------------------------------------- -/
/- C9: ops queue drains in submission order                          -/
/- ---------------------------------------------------------------- -/

/-- Modelled from the spec: the Ops Queue drain step (`pushOpsQueue` and
the kernel's completion loop are in the kernel module, which is not under
src/).  Per §4.3 an entry's `onComplete` runs only when the entry is at
the head of the FIFO pending list and its underlying future has settled.
Given the set of settled ids, running the drain on the pending list
returns the completions run now (in order) and the remaining pending
list. -/
def drainLoop (settled : List Nat) : List Nat → List Nat × List Nat
  | [] => ([], [])
  | i :: rest =>
    if i ∈ settled then
      let p := drainLoop settled rest
      (i :: p.1, p.2)
    else ([], i :: rest)

/-- Modelled from the spec (§4.3, §5): the scheduler processes the
future-settling events one at a time (single-threaded cooperative); after
each settle the queue drains from the head.  Arguments: the settle events
still to fire (in firing order), the submission-ordered pending ids, the
already-settled ids, and the completions already run.  Returns the
completions in the order they were run and the ids still pending. -/
def processEvents : List Nat → List Nat → List Nat → List Nat →
    List Nat × List Nat
  | [], pending, _, executed => (executed, pending)
  | e :: es, pending, settled, executed =>
    let settled' := e :: settled
    let p := drainLoop settled' pending
    processEvents es p.2 settled' (executed ++ p.1)

theorem drainLoop_append (settled pending : List Nat) :
    (drainLoop settled pending).1 ++ (drainLoop settled pending).2 = pending := by
  induction pending with
  | nil => rfl
  | cons i rest ih =>
    unfold drainLoop
    split
    · simp only []
      rw [List.cons_append, ih]
    · rfl

theorem drainLoop_head (settled pending : List Nat) :
    (drainLoop settled pending).2 = [] ∨
    ∃ h t, (drainLoop settled pending).2 = h :: t ∧ h ∉ settled := by
  induction pending with
  | nil => exact Or.inl rfl
  | cons i rest ih =>
    unfold drainLoop
    split
    · simpa using ih
    · exact Or.inr ⟨i, rest, rfl, by assumption⟩

theorem drainLoop_sub (settled pending : List Nat) :
    ∀ x ∈ (drainLoop settled pending).2, x ∈ pending := by
  intro x hx
  rw [← drainLoop_append settled pending]
  exact List.mem_append_right _ hx

/-- Strict-FIFO drain, generalized: if every pending entry's future is
already settled or will settle during the remaining events, and the head
of the pending list has not yet run, then after all events fire the
completions have run exactly in submission order and nothing is pending. -/
theorem processEvents_fifo (events : List Nat) :
    ∀ pending settled executed : List Nat,
    (∀ i ∈ pending, i ∈ settled ∨ i ∈ events) →
    (pending = [] ∨ ∃ h t, pending = h :: t ∧ h ∉ settled) →
    processEvents events pending settled executed = (executed ++ pending, []) := by
  induction events with
  | nil =>
    intro pending settled executed hmem hhead
    rcases hhead with rfl | ⟨h, t, rfl, hns⟩
    · simp [processEvents]
    · exfalso
      rcases hmem h (List.mem_cons_self h t) with hs | he
      · exact hns hs
      · exact absurd he (List.not_mem_nil h)
  | cons e es ih =>
    intro pending settled executed hmem hhead
    have hmem' : ∀ i ∈ (drainLoop (e :: settled) pending).2,
        i ∈ e :: settled ∨ i ∈ es := by
      intro i hi
      rcases hmem i (drainLoop_sub _ _ i hi) with hs | he
      · exact Or.inl (List.mem_cons_of_mem e hs)
      · rcases List.mem_cons.mp he with rfl | h'
        · exact Or.inl (List.mem_cons_self _ _)
        · exact Or.inr h'
    have hstep := ih ((drainLoop (e :: settled) pending).2) (e :: settled)
      (executed ++ (drainLoop (e :: settled) pending).1) hmem'
      (drainLoop_head (e :: settled) pending)
    unfold processEvents
    simp only []
    rw [hstep, List.append_assoc, drainLoop_append]

/-- C9: for every sequence of operations pushed onto the ops queue in
submission order `0..n-1` whose underlying futures settle in an arbitrary
permutation of that order, the completions — and with them every
resulting memory write or module callback — run exactly in submission
order `0..n-1`, and the queue fully drains. -/
theorem opsQueue_fifo (n : Nat) (events : List Nat)
    (hperm : events.Perm (List.range n)) :
    processEvents events (List.range n) [] [] = (List.range n, []) := by
  have hhead : List.range n = [] ∨
      ∃ h t, List.range n = h :: t ∧ h ∉ ([] : List Nat) := by
    cases hL : List.range n with
    | nil => exact Or.inl rfl
    | cons a t => exact Or.inr ⟨a, t, rfl, List.not_mem_nil a⟩
  simpa using processEvents_fifo events (List.range n) [] []
    (fun i hi => Or.inr (hperm.mem_iff.mpr hi)) hhead

/-- Witness for C9: three operations whose futures settle in the order
2, 0, 1 still complete in submission order 0, 1, 2. -/
theorem opsQueue_fifo_witness :
    processEvents [2, 0, 1] (List.range 3) [] [] = (List.range 3, []) :=
  opsQueue_fifo 3 [2, 0, 1] (by decide)
